import Mathlib

/-!
Verification of the booking-intent normalizer of the vaiu-voice-agent
repository: a shallow embedding, in Lean, of the parsing and decision
logic found in routes/bookings.js (number-words decoder, guest-count
normalization, ISO date parsing, weather suggestion policy, booking
creation handler) and in the date and time phrase resolver variant kept
in the repository (function parseBookingDateTime), together with the
moment composition in the fixed IST reference timezone.

Machine integers of JavaScript are modelled as Nat or Int (the inputs
relevant here stay far below 2 to the 53rd, where JS numbers are exact);
floating point probabilities are modelled as rationals; fallible
JavaScript calls return Option.
-/

namespace Vaiu

/-! ## Character and string helpers shared by the embeddings -/

/-- Model of the JS regex class [0-9] (a test such as /\d/ on a token). -/
def isDigitCh (c : Char) : Bool := '0' ≤ c && c ≤ '9'

/-- Numeric value of a decimal digit character. -/
def digitVal (c : Char) : Nat := c.toNat - 48

/-- Decimal digit character for a value below ten. -/
def digitToChar (d : Nat) : Char := Char.ofNat (48 + d)

/-- Model of the JS regex class \s used by split(/\s+/) and trim. -/
def isWsChar (c : Char) : Bool := c.isWhitespace

/-- Model of the JS regex word-character class [A-Za-z0-9_] behind \b. -/
def isWordChar (c : Char) : Bool :=
  ('a' ≤ c && c ≤ 'z') || ('A' ≤ c && c ≤ 'Z') || ('0' ≤ c && c ≤ '9') || c = '_'

/-- Value of a nonempty list of decimal digit characters, most significant
first, as computed by parseInt on a pure digit run. -/
def digitsToNat (ds : List Char) : Nat := ds.foldl (fun a c => a * 10 + digitVal c) 0

/-- Leading-digit model of parseInt(p, 10) on a whitespace-free token:
an optional plus sign, then the maximal run of leading decimal digits;
none models NaN (no digit found).  A minus sign cannot reach parseInt
here because wordsToNumber has already replaced every hyphen by a space
before the string is split into tokens. -/
def jsParseIntNat (p : String) : Option Nat :=
  let cs := match p.data with
    | '+' :: rest => rest
    | cs => cs
  let ds := cs.takeWhile isDigitCh
  if ds.isEmpty then none else some (digitsToNat ds)

/-! ## Number Words Decoder: wordsToNumber in routes/bookings.js -/

/-- Own entries of the object literal small in wordsToNumber (unit words
zero to nineteen).  The JS lookup small[p] != null is modelled as a
finite map over the own keys; inherited Object.prototype keys such as
the word constructor are outside the vocabulary the decoder targets and
are not modelled. -/
def smallWord : String → Option Nat
  | "zero" => some 0 | "one" => some 1 | "two" => some 2 | "three" => some 3
  | "four" => some 4 | "five" => some 5 | "six" => some 6 | "seven" => some 7
  | "eight" => some 8 | "nine" => some 9 | "ten" => some 10 | "eleven" => some 11
  | "twelve" => some 12 | "thirteen" => some 13 | "fourteen" => some 14
  | "fifteen" => some 15 | "sixteen" => some 16 | "seventeen" => some 17
  | "eighteen" => some 18 | "nineteen" => some 19
  | _ => none

/-- Own entries of the object literal tens in wordsToNumber. -/
def tensWord : String → Option Nat
  | "twenty" => some 20 | "thirty" => some 30 | "forty" => some 40
  | "fifty" => some 50 | "sixty" => some 60 | "seventy" => some 70
  | "eighty" => some 80 | "ninety" => some 90
  | _ => none

/-- Splitting of a character list on whitespace runs with empty pieces
dropped: the model of the JS split(/\s+/).filter(Boolean) sequence. -/
def splitWsAux (cur : List Char) : List Char → List (List Char)
  | [] => if cur.isEmpty then [] else [cur.reverse]
  | c :: rest =>
    if isWsChar c then
      (if cur.isEmpty then splitWsAux [] rest else cur.reverse :: splitWsAux [] rest)
    else splitWsAux (c :: cur) rest

/-- Tokenization phase of wordsToNumber: lowercase the string, replace
every hyphen and comma by a space (replace(/[-,]/g, " ")), split on
whitespace runs and drop empty pieces (split(/\s+/).filter(Boolean)).
The replacement replace(/\band\b/g, " ") is modelled by dropping the
tokens that are exactly the word and: for a token equal to and between
whitespace the two coincide, and a token merely containing a bounded
and (such as a parenthesised and) is unrecognized and skipped by the
fold either way, so the final value agrees. -/
def normTokens (s : String) : List String :=
  let replaced := s.data.map (fun c =>
    let lc := c.toLower
    if lc = '-' || lc = ',' then ' ' else lc)
  ((splitWsAux [] replaced).map String.mk).filter (fun t => t ≠ "and")

/-- One step of the wordsToNumber loop over the pair (total, cur),
mirroring the if chain of the source: unit word, tens word, the
multiplier hundred, the multiplier thousand (which folds cur into
total), then a literal-integer token, and otherwise a skip. -/
def wordsStep : Nat × Nat → String → Nat × Nat
  | (total, cur), p =>
    match smallWord p with
    | some v => (total, cur + v)
    | none =>
      match tensWord p with
      | some v => (total, cur + v)
      | none =>
        if p = "hundred" then (total, cur * 100)
        else if p = "thousand" then (total + cur * 1000, 0)
        else
          match jsParseIntNat p with
          | some v => (total, cur + v)
          | none => (total, cur)

/-- Model of wordsToNumber in routes/bookings.js: fold the step over the
normalized tokens starting from (0, 0) and return total + cur. -/
def wordsToNumber (s : String) : Nat :=
  let acc := (normTokens s).foldl wordsStep (0, 0)
  acc.1 + acc.2

/-- Boolean test that a token falls into no branch of the step: not a
unit word, not a tens word, not a multiplier, and NaN under parseInt. -/
def unrecognizedToken (p : String) : Bool :=
  (smallWord p).isNone && (tensWord p).isNone && p ≠ "hundred" && p ≠ "thousand"
    && (jsParseIntNat p).isNone

/-! ## Guest-count normalization in the booking creation handler -/

/-- First maximal run of decimal digits of a character list: the model of
the JS match s.match(/\d+/) (its capture m[0]). -/
def firstDigitRun : List Char → Option (List Char)
  | [] => none
  | c :: rest =>
    if isDigitCh c then some (c :: rest.takeWhile isDigitCh)
    else firstDigitRun rest

/-- Whether a string contains a decimal digit (the JS test /[0-9]/). -/
def hasDigitStr (s : String) : Bool := s.data.any isDigitCh

/-- Model of the guest-count branch of the POST handler for a string
field: if the string contains a digit, the value is parseInt of the
first maximal digit run; otherwise wordsToNumber is consulted, and a
decoded zero becomes undefined (none) through the expression
wn || undefined. -/
def parseGuestStr (s : String) : Option Nat :=
  match firstDigitRun s.data with
  | some run => some (digitsToNat run)
  | none =>
    let wn := wordsToNumber s
    if wn = 0 then none else some wn

/-! ## Weather Suggestion Policy: summarizeSuggestion in routes/bookings.js -/

/-- Prefix test on character lists. -/
def startsWithCL : List Char → List Char → Bool
  | [], _ => true
  | _ :: _, [] => false
  | a :: as, b :: bs => a = b && startsWithCL as bs

/-- Substring search on character lists (first argument the needle). -/
def containsCL (sub : List Char) : List Char → Bool
  | [] => sub.isEmpty
  | c :: rest => startsWithCL sub (c :: rest) || containsCL sub rest

/-- Case-sensitive substring containment: the model of the JS
String.prototype.includes call (applied after lowercasing). -/
def strIncludes (s sub : String) : Bool := containsCL sub.data s.data

/-- ASCII lowercase of a string at the character-list level, the model of
toLowerCase on the inputs in scope. -/
def lowerStr (s : String) : String := String.mk (s.data.map Char.toLower)

/-- Model of summarizeSuggestion(condition, rainProb) in
routes/bookings.js: the lowercased condition is tested for the
substrings clear, sun and rain, the precipitation probability (a JS
float modelled as a rational) against the fixed thresholds 0.2 and 0.4,
first match wins. -/
def summarizeSuggestion (condition : String) (rainProb : Rat) : String × String :=
  let cond := lowerStr condition
  let pop := rainProb
  if strIncludes cond ("clear") || strIncludes cond ("sun") || pop < (mkRat 1 5) then
    ("good", "Good for outdoor dining")
  else if strIncludes cond ("rain") || pop ≥ (mkRat 2 5) then
    ("bad", "Rain likely — indoor seating recommended")
  else
    ("moderate", "Weather moderate — indoor recommended for safety")

/-- Seating choice of the POST handler: outdoor exactly when the
category is good, indoor otherwise. -/
def seatingFromCategory (cat : String) : String :=
  if cat = "good" then "outdoor" else "indoor"

/-- Modelled from the spec: the seating decision as the claim words it,
for comparison with the source-derived summarizeSuggestion chain.  The
boolean component is the suggest-outdoor flag. -/
def specSeatingDecision (condition : String) (pop : Rat) : String × Bool :=
  let cond := lowerStr condition
  if strIncludes cond ("clear") || strIncludes cond ("sun") || pop < (mkRat 1 5) then
    ("good", true)
  else if strIncludes cond ("rain") || pop ≥ (mkRat 2 5) then
    ("bad", false)
  else
    ("moderate", false)

/-! ## Calendar base: leap years and month lengths (Gregorian, as moment
computes them) -/

/-- Gregorian leap-year rule on a natural year. -/
def isLeapN (y : Nat) : Bool := (y % 4 == 0 && y % 100 != 0) || y % 400 == 0

/-- Gregorian leap-year rule on an integer year (moment year numbers are
signed). -/
def isLeapI (y : Int) : Bool := (y % 4 == 0 && y % 100 != 0) || y % 400 == 0

/-- Days in month m (1 to 12) of a year with the given leap flag.  The
catch-all arm keeps the function total; months outside 1 to 12 never
pass the validity checks below. -/
def monthLenN (leap : Bool) (m : Nat) : Nat :=
  match m with
  | 1 => 31 | 2 => if leap then 29 else 28 | 3 => 31 | 4 => 30 | 5 => 31
  | 6 => 30 | 7 => 31 | 8 => 31 | 9 => 30 | 10 => 31 | 11 => 30 | 12 => 31
  | _ => 31

/-! ## Date parsing of the active router: parseBookingDate in
routes/bookings.js -/

/-- Decimal digit value of a character, none when not a digit. -/
def charToDigit (c : Char) : Option Nat :=
  if isDigitCh c then some (digitVal c) else none

/-- Model of the moment format YYYY-MM-DD (equally the date-only shape of
moment.ISO_8601) on a character list: exactly four digits, a hyphen,
two digits, a hyphen, two digits, with the moment range check that the
month is 1 to 12 and the day fits the month of that year.  The
non-strict matcher of parseBookingDate accepts further separators and
trailing text; the claims quantify over canonical well-formed ISO date
strings, which this shape captures exactly. -/
def parseYMDChars : List Char → Option (Nat × Nat × Nat)
  | [y1, y2, y3, y4, '-', m1, m2, '-', d1, d2] => do
    let a ← charToDigit y1
    let b ← charToDigit y2
    let c ← charToDigit y3
    let d ← charToDigit y4
    let e ← charToDigit m1
    let f ← charToDigit m2
    let g ← charToDigit d1
    let h ← charToDigit d2
    let y := a * 1000 + b * 100 + c * 10 + d
    let m := e * 10 + f
    let dd := g * 10 + h
    if 1 ≤ m ∧ m ≤ 12 ∧ 1 ≤ dd ∧ dd ≤ monthLenN (isLeapN y) m then
      some (y, m, dd)
    else none
  | _ => none

/-- Whitespace trim at both ends of a character list: the model of the
JS String.prototype.trim call. -/
def trimChars (cs : List Char) : List Char :=
  ((cs.dropWhile isWsChar).reverse.dropWhile isWsChar).reverse

/-- Model of parseBookingDate(value) in routes/bookings.js, resolved to
the local IST calendar fields.  The falsy guard returns null on the
empty string; the trimmed string is then matched against the
YYYY-MM-DD and ISO formats; on failure the source falls back to the
engine-defined Date constructor, modelled by the explicit oracle
argument jsDateFallback.  The Date-instance passthrough branch of the
source concerns non-string inputs and is outside this string-level
model. -/
def parseBookingDate (jsDateFallback : String → Option (Nat × Nat × Nat))
    (value : String) : Option (Nat × Nat × Nat) :=
  if value = "" then none
  else
    let raw := trimChars value.data
    match parseYMDChars raw with
    | some ymd => some ymd
    | none => jsDateFallback (String.mk raw)

/-- Two-digit zero-padded decimal rendering of a value below 100. -/
def pad2 (n : Nat) : List Char := [digitToChar (n / 10), digitToChar (n % 10)]

/-- Four-digit zero-padded decimal rendering of a value below 10000. -/
def pad4 (n : Nat) : List Char :=
  [digitToChar (n / 1000), digitToChar (n / 100 % 10),
   digitToChar (n / 10 % 10), digitToChar (n % 10)]

/-- Canonical well-formed ISO date string for the given fields. -/
def isoString (y m d : Nat) : String :=
  String.mk (pad4 y ++ '-' :: (pad2 m ++ '-' :: pad2 d))

/-- Oracle standing for an engine Date constructor that parses nothing;
used to instantiate fallback parameters at concrete inputs where the
fallback is not reached. -/
def noJsDate : String → Option (Nat × Nat × Nat) := fun _ => none

/-! ## Date Phrase Resolver: the date half of parseBookingDateTime (the
router variant kept in the repository).  Moment is asked, in order, for
strict ISO, then the strict format list MMMM D YYYY, MMMM D,
D MMMM YYYY, D MMMM, YYYY-MM-DD, DD-MM-YYYY, MM-DD-YYYY, then a relaxed
engine parse; a format without a year token receives the current year
as the moment default; afterwards the implausible-year fixup runs. -/

/-- Case-insensitive character comparison, as the moment month-name
regexes match. -/
def eqCI (a b : Char) : Bool := a.toLower == b.toLower

/-- Case-insensitive literal match of a word at the head of the input,
returning the rest. -/
def matchCI : List Char → List Char → Option (List Char)
  | [], cs => some cs
  | _ :: _, [] => none
  | w :: ws, c :: cs => if eqCI w c then matchCI ws cs else none

/-- The twelve full month names with their one-based indices, as the
strict MMMM token matches them. -/
def monthNames : List (String × Nat) :=
  [("January", 1), ("February", 2), ("March", 3), ("April", 4), ("May", 5),
   ("June", 6), ("July", 7), ("August", 8), ("September", 9), ("October", 10),
   ("November", 11), ("December", 12)]

/-- Match one of the month names at the head of the input.  No full name
is a prefix of another, so at most one name can match and the try order
is immaterial. -/
def matchMonthFrom : List (String × Nat) → List Char → Option (Nat × List Char)
  | [], _ => none
  | (nm, idx) :: rest, cs =>
    match matchCI nm.data cs with
    | some r => some (idx, r)
    | none => matchMonthFrom rest cs

/-- Month-name matcher over the full list. -/
def matchMonth (cs : List Char) : Option (Nat × List Char) :=
  matchMonthFrom monthNames cs

/-- Greedy one-or-two digit number, the strict moment tokens D and h. -/
def parse1or2 : List Char → Option (Nat × List Char)
  | [] => none
  | c :: rest =>
    match charToDigit c with
    | none => none
    | some v1 =>
      match rest with
      | c2 :: rest2 =>
        match charToDigit c2 with
        | some v2 => some (v1 * 10 + v2, rest2)
        | none => some (v1, rest)
      | [] => some (v1, [])

/-- Exactly two digits, the strict moment tokens DD, MM, mm and HH. -/
def parse2exact : List Char → Option (Nat × List Char)
  | c1 :: c2 :: rest => do
    let a ← charToDigit c1
    let b ← charToDigit c2
    some (a * 10 + b, rest)
  | _ => none

/-- Exactly four digits, the strict moment token YYYY. -/
def parse4exact : List Char → Option (Nat × List Char)
  | c1 :: c2 :: c3 :: c4 :: rest => do
    let a ← charToDigit c1
    let b ← charToDigit c2
    let c ← charToDigit c3
    let d ← charToDigit c4
    some (a * 1000 + b * 100 + c * 10 + d, rest)
  | _ => none

/-- Literal separator of a strict format. -/
def expectChar (ch : Char) : List Char → Option (List Char)
  | c :: rest => if c = ch then some rest else none
  | [] => none

/-- Outcome of a strict format match before year defaulting: the year as
written when the format carries one. -/
structure RawParse where
  year : Option Int
  month : Nat
  day : Nat
deriving DecidableEq

/-- Range check moment performs after a strict match: month 1 to 12 and
day fitting the month, using the leap shape of the written year when
present and of the default (current) year otherwise. -/
def mkParse (defaultLeap : Bool) (y : Option Int) (m d : Nat) : Option RawParse :=
  let leap := match y with
    | some yy => isLeapI yy
    | none => defaultLeap
  if 1 ≤ m ∧ m ≤ 12 ∧ 1 ≤ d ∧ d ≤ monthLenN leap m then some ⟨y, m, d⟩ else none

/-- Strict format MMMM D YYYY. -/
def fmtMonthDayYear (dl : Bool) (cs : List Char) : Option RawParse := do
  let (m, r1) ← matchMonth cs
  let r2 ← expectChar ' ' r1
  let (d, r3) ← parse1or2 r2
  let r4 ← expectChar ' ' r3
  let (y, r5) ← parse4exact r4
  if r5 = [] then mkParse dl (some (Int.ofNat y)) m d else none

/-- Strict format MMMM D (year supplied later by the moment default). -/
def fmtMonthDay (dl : Bool) (cs : List Char) : Option RawParse := do
  let (m, r1) ← matchMonth cs
  let r2 ← expectChar ' ' r1
  let (d, r3) ← parse1or2 r2
  if r3 = [] then mkParse dl none m d else none

/-- Strict format D MMMM YYYY. -/
def fmtDayMonthYear (dl : Bool) (cs : List Char) : Option RawParse := do
  let (d, r1) ← parse1or2 cs
  let r2 ← expectChar ' ' r1
  let (m, r3) ← matchMonth r2
  let r4 ← expectChar ' ' r3
  let (y, r5) ← parse4exact r4
  if r5 = [] then mkParse dl (some (Int.ofNat y)) m d else none

/-- Strict format D MMMM. -/
def fmtDayMonth (dl : Bool) (cs : List Char) : Option RawParse := do
  let (d, r1) ← parse1or2 cs
  let r2 ← expectChar ' ' r1
  let (m, r3) ← matchMonth r2
  if r3 = [] then mkParse dl none m d else none

/-- Strict format YYYY-MM-DD, equally the date-only shape of strict ISO;
the range check of parseYMDChars coincides with mkParse on nonnegative
years. -/
def fmtYMDdash (cs : List Char) : Option RawParse :=
  (parseYMDChars cs).map (fun t => ⟨some (Int.ofNat t.1), t.2.1, t.2.2⟩)

/-- Strict format DD-MM-YYYY. -/
def fmtDMYdash (dl : Bool) (cs : List Char) : Option RawParse := do
  let (d, r1) ← parse2exact cs
  let r2 ← expectChar '-' r1
  let (m, r3) ← parse2exact r2
  let r4 ← expectChar '-' r3
  let (y, r5) ← parse4exact r4
  if r5 = [] then mkParse dl (some (Int.ofNat y)) m d else none

/-- Strict format MM-DD-YYYY. -/
def fmtMDYdash (dl : Bool) (cs : List Char) : Option RawParse := do
  let (m, r1) ← parse2exact cs
  let r2 ← expectChar '-' r1
  let (d, r3) ← parse2exact r2
  let r4 ← expectChar '-' r3
  let (y, r5) ← parse4exact r4
  if r5 = [] then mkParse dl (some (Int.ofNat y)) m d else none

/-- The ordered strict attempts of parseBookingDateTime: the ISO check
first, then the dateFormats list (whose YYYY-MM-DD entry repeats the
ISO date-only shape and can never fire anew; it is kept for order
fidelity). -/
def tryFormats (dl : Bool) (s : String) : Option RawParse :=
  let cs := s.data
  fmtYMDdash cs <|> fmtMonthDayYear dl cs <|> fmtMonthDay dl cs <|>
    fmtDayMonthYear dl cs <|> fmtDayMonth dl cs <|> fmtYMDdash cs <|>
    fmtDMYdash dl cs <|> fmtMDYdash dl cs

/-- Reference day: the calendar date of the server clock at the moment of
parsing (the source reads moment() for the current year and for the
start of the current day). -/
structure RefDay where
  y : Int
  m : Nat
  d : Nat
deriving DecidableEq

/-- Lexicographic strictly-before on calendar dates: the model of
parsedDate.isBefore(moment().startOf(day)), both instants being local
midnights. -/
def dateBeforeP (a b : Int × Nat × Nat) : Prop :=
  a.1 < b.1 ∨ (a.1 = b.1 ∧ (a.2.1 < b.2.1 ∨ (a.2.1 = b.2.1 ∧ a.2.2 < b.2.2)))

instance (a b : Int × Nat × Nat) : Decidable (dateBeforeP a b) := by
  unfold dateBeforeP; infer_instance

/-- The implausible-year fixup of parseBookingDateTime: when the parsed
year lies more than ten years before the current year or before 1900,
substitute the current year, and if the date then falls strictly before
the start of the current day, advance the year by one. -/
def fixupYear (ref : RefDay) (p : Int × Nat × Nat) : Int × Nat × Nat :=
  if p.1 < ref.y - 10 ∨ p.1 < 1900 then
    let p1 : Int × Nat × Nat := (ref.y, p.2.1, p.2.2)
    if dateBeforeP p1 (ref.y, ref.m, ref.d) then (ref.y + 1, p.2.1, p.2.2) else p1
  else p

/-- The date half of parseBookingDateTime: strict formats (with the
current year as the moment default for year-free formats), then the
relaxed engine parse modelled by the oracle argument, then the
implausible-year fixup on whichever result was obtained. -/
def resolveDate (relaxed : String → Option (Int × Nat × Nat)) (ref : RefDay)
    (s : String) : Option (Int × Nat × Nat) :=
  match tryFormats (isLeapI ref.y) s with
  | some pr => some (fixupYear ref (pr.year.getD ref.y, pr.month, pr.day))
  | none => (relaxed s).map (fixupYear ref)

/-- Oracle standing for an engine Date constructor that parses nothing,
for concrete inputs on which the strict formats already succeed. -/
def noRelaxed : String → Option (Int × Nat × Nat) := fun _ => none

/-- The twelve month names as an enumeration, to quantify over year-free
named-month inputs. -/
inductive MonthName
  | january | february | march | april | may | june
  | july | august | september | october | november | december
deriving DecidableEq

/-- Spelled name of a month. -/
def monthNameStr : MonthName → String
  | .january => "January" | .february => "February" | .march => "March"
  | .april => "April" | .may => "May" | .june => "June" | .july => "July"
  | .august => "August" | .september => "September" | .october => "October"
  | .november => "November" | .december => "December"

/-- One-based index of a month. -/
def monthIdx : MonthName → Nat
  | .january => 1 | .february => 2 | .march => 3 | .april => 4 | .may => 5
  | .june => 6 | .july => 7 | .august => 8 | .september => 9 | .october => 10
  | .november => 11 | .december => 12

/-- A year-free named-month date string, such as January 5. -/
def mkMonthDayString (m : MonthName) (d : Nat) : String :=
  monthNameStr m ++ " " ++ Nat.repr d

/-! ## Time Phrase Resolver: the time half of parseBookingDateTime.  The
source extracts a day-part hint with /\b(morning|afternoon|evening|
night)\b/i, removes all bounded hint words, strips dots, collapses
whitespace, and substitutes a default clock string when no digit
remains; the result then runs through the strict time format list. -/

/-- The four day-part hints. -/
inductive Hint
  | morning | afternoon | evening | night
deriving DecidableEq

/-- Word-boundary test after a match: end of input or a non-word
character (the trailing \b of the hint regex). -/
def boundaryAfter : List Char → Bool
  | [] => true
  | c :: _ => !isWordChar c

/-- Attempt of one hint word at the head of the input, demanding the
trailing word boundary; the leading boundary is enforced by the
caller. -/
def tryHintWord (w : String) (h : Hint) (cs : List Char) : Option (Hint × List Char) :=
  match matchCI w.data cs with
  | some r => if boundaryAfter r then some (h, r) else none
  | none => none

/-- Try the four alternatives at one position.  The words begin with four
distinct letters, so at most one can match and the alternation order of
the regex is immaterial. -/
def matchHintAt (cs : List Char) : Option (Hint × List Char) :=
  match tryHintWord ("morning") .morning cs with
  | some p => some p
  | none =>
    match tryHintWord ("afternoon") .afternoon cs with
    | some p => some p
    | none =>
      match tryHintWord ("evening") .evening cs with
      | some p => some p
      | none => tryHintWord ("night") .night cs

/-- Scan for the first bounded hint word, tracking whether the previous
character is a word character (the leading \b).  This is the model of
timeStr.match(/\b(morning|afternoon|evening|night)\b/i). -/
def findHintAux : Bool → List Char → Option Hint
  | _, [] => none
  | prevW, c :: rest =>
    match (if prevW then none else matchHintAt (c :: rest)) with
    | some (h, _) => some h
    | none => findHintAux (isWordChar c) rest

/-- First day-part hint of a time string, lowercased by construction. -/
def findHint (s : String) : Option Hint := findHintAux false s.data

/-- Removal of every bounded hint word, the model of the global
replace(/\b(morning|afternoon|evening|night)\b/ig, "").  The fuel is
the remaining input length; every step consumes at least one character,
so the zero-fuel arm is never reached from removeHints. -/
def removeHintsAux : Nat → Bool → List Char → List Char
  | 0, _, cs => cs
  | fuel + 1, prevW, cs =>
    match cs with
    | [] => []
    | c :: rest =>
      if prevW then c :: removeHintsAux fuel (isWordChar c) rest
      else
        match matchHintAt (c :: rest) with
        | some (_, rest2) => removeHintsAux fuel true rest2
        | none => c :: removeHintsAux fuel (isWordChar c) rest

/-- Hint-word removal over a whole character list. -/
def removeHints (cs : List Char) : List Char := removeHintsAux cs.length false cs

/-- Collapse of whitespace runs to single spaces: the model of
replace(/\s+/g, " "). -/
def collapseWs : Bool → List Char → List Char
  | _, [] => []
  | prevWs, c :: r =>
    if isWsChar c then
      (if prevWs then collapseWs true r else ' ' :: collapseWs true r)
    else c :: collapseWs false r

/-- The normalization pipeline of the source: remove hint words, trim,
remove dots (for forms such as p.m.), collapse whitespace, trim. -/
def normalizeTime (s : String) : String :=
  let afterHints := trimChars (removeHints s.data)
  let noDots := afterHints.filter (fun c => c ≠ '.')
  String.mk (trimChars (collapseWs false noDots))

/-- Meridiem token of the en locale, matched case-insensitively as the
letter a or p with an optional m (dots are already stripped upstream);
true means pm. -/
def parseMeridiem : List Char → Option (Bool × List Char)
  | [] => none
  | c :: rest =>
    let lc := c.toLower
    if lc = 'a' then
      match rest with
      | m :: rest2 => if m.toLower = 'm' then some (false, rest2) else some (false, rest)
      | [] => some (false, [])
    else if lc = 'p' then
      match rest with
      | m :: rest2 => if m.toLower = 'm' then some (true, rest2) else some (true, rest)
      | [] => some (true, [])
    else none

/-- Twelve-hour value combined with a meridiem into a 24-hour value. -/
def meridiemHour (pm : Bool) (h : Nat) : Nat := if pm then h % 12 + 12 else h % 12

/-- Strict format h:mm a. -/
def fmtHMMa (cs : List Char) : Option (Nat × Nat) := do
  let (h, r1) ← parse1or2 cs
  let r2 ← expectChar ':' r1
  let (mm, r3) ← parse2exact r2
  let r4 ← expectChar ' ' r3
  let (pm, r5) ← parseMeridiem r4
  if 1 ≤ h ∧ h ≤ 12 ∧ mm ≤ 59 ∧ r5 = [] then some (meridiemHour pm h, mm) else none

/-- Strict format hh:mm a (two-digit hour). -/
def fmtHHMMa (cs : List Char) : Option (Nat × Nat) := do
  let (h, r1) ← parse2exact cs
  let r2 ← expectChar ':' r1
  let (mm, r3) ← parse2exact r2
  let r4 ← expectChar ' ' r3
  let (pm, r5) ← parseMeridiem r4
  if 1 ≤ h ∧ h ≤ 12 ∧ mm ≤ 59 ∧ r5 = [] then some (meridiemHour pm h, mm) else none

/-- Strict format H:mm (24-hour). -/
def fmtHMM24 (cs : List Char) : Option (Nat × Nat) := do
  let (h, r1) ← parse1or2 cs
  let r2 ← expectChar ':' r1
  let (mm, r3) ← parse2exact r2
  if h ≤ 23 ∧ mm ≤ 59 ∧ r3 = [] then some (h, mm) else none

/-- Strict format HH:mm. -/
def fmtHHMM24 (cs : List Char) : Option (Nat × Nat) := do
  let (h, r1) ← parse2exact cs
  let r2 ← expectChar ':' r1
  let (mm, r3) ← parse2exact r2
  if h ≤ 23 ∧ mm ≤ 59 ∧ r3 = [] then some (h, mm) else none

/-- Strict format h a (bare hour with meridiem). -/
def fmtHa (cs : List Char) : Option (Nat × Nat) := do
  let (h, r1) ← parse1or2 cs
  let r2 ← expectChar ' ' r1
  let (pm, r3) ← parseMeridiem r2
  if 1 ≤ h ∧ h ≤ 12 ∧ r3 = [] then some (meridiemHour pm h, 0) else none

/-- The ordered strict time formats of parseBookingDateTime, yielding the
clock fields of the combined moment. -/
def parseClockFormats (s : String) : Option (Nat × Nat) :=
  let cs := s.data
  fmtHMMa cs <|> fmtHHMMa cs <|> fmtHMM24 cs <|> fmtHHMM24 cs <|> fmtHa cs

/-- Default clock string substituted when no digit remains, by hint:
evening 6:00 PM, afternoon 2:00 PM, morning 9:00 AM, and otherwise
(night, or no hint) 6:00 PM. -/
def hintDefaultStr : Option Hint → String
  | some .evening => "6:00 PM"
  | some .afternoon => "2:00 PM"
  | some .morning => "9:00 AM"
  | _ => "6:00 PM"

/-- Outcome of the clock-time resolution: either clock fields from a
strict format, or the fall-through to the lenient combined date-time
parse of the source, which this model leaves abstract. -/
inductive TimeParse
  | parsed (hour minute : Nat)
  | lenientFallback (normalized : String)
deriving DecidableEq

/-- The time half of parseBookingDateTime: extract the hint, normalize,
substitute the hint default when no digit remains, then run the strict
format list. -/
def resolveTime (timeStr : String) : TimeParse :=
  let hint := findHint timeStr
  let normalized := normalizeTime timeStr
  let withDefault := if hasDigitStr normalized then normalized else hintDefaultStr hint
  match parseClockFormats withDefault with
  | some p => .parsed p.1 p.2
  | none => .lenientFallback withDefault

/-- Clock fields announced by the claim for each day-part hint. -/
def hintDefault : Option Hint → Nat × Nat
  | some .morning => (9, 0)
  | some .afternoon => (14, 0)
  | some .evening => (18, 0)
  | some .night => (18, 0)
  | none => (18, 0)

/-! ## Booking Moment Composer.  The source builds the local wall-clock
instant moment.tz(date time, YYYY-MM-DD h:mm a, Asia/Kolkata, true),
stores its UTC instant (utcDate) and formats its local display
(localISO) from the same moment object.  IST is the fixed offset
UTC+05:30 with no daylight saving, so the zone conversion is a constant
shift of 330 minutes; the instant is modelled as minutes since the
local epoch year 0 of the proleptic Gregorian calendar moment uses. -/

/-- Days in a year. -/
def daysInYearN (y : Nat) : Nat := if isLeapN y then 366 else 365

/-- Days strictly before year y, counting from year 0. -/
def daysBeforeYearN : Nat → Nat
  | 0 => 0
  | y + 1 => daysBeforeYearN y + daysInYearN y

/-- Days strictly before month m within a year of the given leap shape. -/
def daysBeforeMonthN (leap : Bool) : Nat → Nat
  | 0 => 0
  | 1 => 0
  | m + 2 => daysBeforeMonthN leap (m + 1) + monthLenN leap (m + 1)

/-- Day number of a calendar date, counting from 0000-01-01 as day 0. -/
def toDayNumber (y m d : Nat) : Nat :=
  daysBeforeYearN y + daysBeforeMonthN (isLeapN y) m + (d - 1)

/-- Inverse year scan: peel whole years off a day number.  The fuel
bounds the recursion; every step consumes at least one day, so fuel
beyond the day number is never exhausted. -/
def yearGo : Nat → Nat → Nat → Nat × Nat
  | 0, y, n => (y, n)
  | fuel + 1, y, n =>
    if n < daysInYearN y then (y, n) else yearGo fuel (y + 1) (n - daysInYearN y)

/-- Inverse month scan within a year: peel whole months off a day of
year.  Thirteen fuel always suffices. -/
def monthGo : Nat → Bool → Nat → Nat → Nat × Nat
  | 0, _, m, doy => (m, doy)
  | fuel + 1, leap, m, doy =>
    if doy < monthLenN leap m then (m, doy)
    else monthGo fuel leap (m + 1) (doy - monthLenN leap m)

/-- Calendar date of a day number (inverse of toDayNumber). -/
def fromDayNumber (n : Nat) : Nat × Nat × Nat :=
  let yr := yearGo (n + 1) 0 n
  let mr := monthGo 13 (isLeapN yr.1) 1 yr.2
  (yr.1, mr.1, mr.2 + 1)

/-- Fixed IST offset in minutes (UTC+05:30). -/
def istOffsetMin : Nat := 330

/-- A composed booking moment: its absolute instant in minutes.  Both
the stored UTC instant and the local display of the source are derived
from this one value, exactly as utcDate and localISO are both read off
the single timeMoment object. -/
structure BookingMoment where
  instantMin : Nat
deriving DecidableEq

/-- Compose the moment of a resolved date and time in IST: local
wall-clock minutes shifted to the absolute (UTC) timeline. -/
def composeMoment (y m d hh mi : Nat) : BookingMoment :=
  ⟨toDayNumber y m d * 1440 + hh * 60 + mi - istOffsetMin⟩

/-- Local display fields of a moment in IST: shift the absolute instant
back by the fixed offset and read off the calendar and clock fields. -/
def localFields (bm : BookingMoment) : Nat × Nat × Nat × Nat × Nat :=
  let loc := bm.instantMin + istOffsetMin
  let ymd := fromDayNumber (loc / 1440)
  (ymd.1, ymd.2.1, ymd.2.2, loc % 1440 / 60, loc % 1440 % 60)

/-- Running day total of consecutive years: j years starting at year k. -/
def sumFromYears : Nat → Nat → Nat
  | _, 0 => 0
  | k, j + 1 => daysInYearN k + sumFromYears (k + 1) j

/-- Running day total of consecutive months: j months starting at
month k. -/
def sumMonths (leap : Bool) : Nat → Nat → Nat
  | _, 0 => 0
  | k, j + 1 => monthLenN leap k + sumMonths leap (k + 1) j

/-! ## Booking creation handler: the POST route of routes/bookings.js,
from the normalized request fields through validation, the weather
lookup with its default substitution, and the preview or save
response. -/

/-- Compact weather summary stored with a booking. -/
structure CompactWeather where
  category : String
  text : String
  note : Option String
deriving DecidableEq

/-- The fixed default substituted whenever no usable weather observation
exists (defaultGoodWeather in the source). -/
def defaultGoodWeather : CompactWeather :=
  { category := "good", text := "Good for outdoor dining", note := some ("default") }

/-- Shape a weather service response can take after the source unifies
w.weatherInfo and w (the service in this repository returns the flat
shape).  Absent JS fields are none; the JS truthiness of present empty
strings and zero numbers is modelled in the lookups below. -/
structure WeatherShape where
  error : Option String
  message : Option String
  condition : Option String
  category : Option String
  suggestion : Option String
  rainProbability : Option Rat
  pop : Option Rat
  note : Option String
  source : Option String

/-- Behavior of the awaited weather call: it throws, or returns null, or
returns a shape. -/
inductive ServiceBehavior
  | threw (msg : String)
  | returned (w : Option WeatherShape)

/-- Environment of the weather lookup: whether the service module
loaded, whether the API key is set, and what the call would do. -/
structure WeatherEnv where
  hasService : Bool
  hasApiKey : Bool
  behavior : ServiceBehavior

/-- The weatherError marker the handler keeps alongside the compact
weather. -/
structure WeatherErrInfo where
  code : String
  message : String
deriving DecidableEq

/-- JS a || b for a possibly-absent string against a string default:
absent and empty are falsy. -/
def jsStrOr (a : Option String) (b : String) : String :=
  match a with
  | some s => if s = "" then b else s
  | none => b

/-- JS a || b for a possibly-absent number against a numeric default:
absent and zero are falsy. -/
def jsRatOr (a : Option Rat) (b : Rat) : Rat :=
  match a with
  | some x => if x = 0 then b else x
  | none => b

/-- JS truthiness of a possibly-absent string. -/
def truthyOpt (a : Option String) : Bool :=
  match a with
  | some s => s ≠ ""
  | none => false

/-- The note field of a unified response: wi.note || (wi.source ?
wi.source : null). -/
def weatherNote (note source : Option String) : Option String :=
  let sourceVal : Option String :=
    match source with
    | some t => if t = "" then none else some t
    | none => none
  match note with
  | some s => if s = "" then sourceVal else some s
  | none => sourceVal

/-- The weather lookup section of the POST handler: skip to the default
when the service, the key or a client-sent date is missing; otherwise
call the service, substituting the default on a thrown error, a null
response or an error shape; on success summarize the observation.  The
pair carries the compact weather and the weatherError marker. -/
def weatherLookup (env : WeatherEnv) (clientProvidedDate : Bool) :
    CompactWeather × Option WeatherErrInfo :=
  if env.hasService = false ∨ env.hasApiKey = false ∨ clientProvidedDate = false then
    (defaultGoodWeather,
      some { code := "skipped",
             message := "weather service not used; default suggestion returned" })
  else
    match env.behavior with
    | .threw msg => (defaultGoodWeather, some { code := "exception", message := msg })
    | .returned none =>
      (defaultGoodWeather,
        some { code := "no_data", message := "no usable weather data" })
    | .returned (some w) =>
      if truthyOpt w.error then
        (defaultGoodWeather,
          some { code := jsStrOr w.error ("no_data"),
                 message := jsStrOr w.message ("no usable weather data") })
      else
        let cond := jsStrOr w.condition (jsStrOr w.category (jsStrOr w.suggestion ""))
        let pop := jsRatOr w.rainProbability (jsRatOr w.pop 0)
        let summary := summarizeSuggestion cond pop
        ({ category := summary.1, text := summary.2,
           note := weatherNote w.note w.source }, none)

/-- The guest-count field as received: a JSON number, a string (covering
the alias chain numberOfGuests, guests, number after asString), or
absent. -/
inductive GuestsRaw
  | num (n : Int)
  | str (s : String)
  | absent

/-- Normalization of the guest count: a number passes through, a string
runs through the digit-run and word-decoder logic, absence normalizes
like the empty string. -/
def normalizeGuests : GuestsRaw → Option Int
  | .num n => some n
  | .str s => (parseGuestStr s).map (fun v => (v : Int))
  | .absent => (parseGuestStr "").map (fun v => (v : Int))

/-- JS falsiness of the normalized guest count: undefined or zero (a NaN
number field would also be falsy; NaN is outside the Int model). -/
def guestsFalsy (g : Option Int) : Prop := g = none ∨ g = some 0

instance (g : Option Int) : Decidable (guestsFalsy g) := by
  unfold guestsFalsy; infer_instance

/-- Normalized request fields of the POST handler (after asString and
the alias chains of the source). -/
structure BookingInput where
  customerName : String
  guests : GuestsRaw
  bookingDateRaw : String
  bookingTime : String
  previewQuery : Bool
  previewBody : Bool
  autoConfirmQuery : Bool
  autoConfirmBody : Bool

/-- The preview object the handler builds; the saved booking document
carries the same fields (plus identity and status). -/
structure PreviewObj where
  customerName : String
  numberOfGuests : Option Int
  bookingDate : Option (Nat × Nat × Nat)
  bookingTime : String
  weatherInfo : CompactWeather
  seatingPreference : String
deriving DecidableEq

/-- Observable outcome of one POST request: the HTTP status, the error
code if any, the preview object when previewing, the record saved when
confirming (none means nothing was written), and the internal
weatherError marker. -/
structure HandlerResult where
  status : Nat
  errorCode : Option String
  preview : Option PreviewObj
  saved : Option PreviewObj
  weatherError : Option WeatherErrInfo
deriving DecidableEq

/-- The POST handler of routes/bookings.js from normalized fields on:
preview and autoConfirm flags, required-field validation for non-preview
or auto-confirmed requests, the weather lookup, the seating choice, and
the preview or save response.  The jsDateFallback oracle stands for the
engine Date constructor reached by parseBookingDate on non-ISO
strings. -/
def createBooking (jsDateFallback : String → Option (Nat × Nat × Nat))
    (env : WeatherEnv) (inp : BookingInput) : HandlerResult :=
  let numberOfGuests := normalizeGuests inp.guests
  let bookingDate := parseBookingDate jsDateFallback inp.bookingDateRaw
  let previewOnly := inp.previewQuery || inp.previewBody
  let autoConfirm := previewOnly && (inp.autoConfirmQuery || inp.autoConfirmBody)
  if (previewOnly = false ∨ autoConfirm = true) ∧
      (inp.customerName = "" ∨ guestsFalsy numberOfGuests ∨
        bookingDate = none ∨ inp.bookingTime = "") then
    { status := 400, errorCode := some ("missing_fields"), preview := none,
      saved := none, weatherError := none }
  else
    let clientProvidedDate := inp.bookingDateRaw ≠ ""
    let wres := weatherLookup env (decide clientProvidedDate)
    let compactWeather := wres.1
    let weatherError := wres.2
    let seatingPreference :=
      if compactWeather.category = "good" then "outdoor" else "indoor"
    let obj : PreviewObj :=
      { customerName := inp.customerName, numberOfGuests := numberOfGuests,
        bookingDate := bookingDate, bookingTime := inp.bookingTime,
        weatherInfo := compactWeather, seatingPreference := seatingPreference }
    if previewOnly = true ∧ autoConfirm = false then
      { status := 200, errorCode := none, preview := some obj, saved := none,
        weatherError := weatherError }
    else
      { status := 201, errorCode := none, preview := none, saved := some obj,
        weatherError := weatherError }

/-- No usable weather observation: the service module is absent, the API
key is missing, the client sent no date, the call threw, the call
returned null, or the call returned an error shape. -/
def weatherUnavailable (env : WeatherEnv) (inp : BookingInput) : Prop :=
  env.hasService = false ∨ env.hasApiKey = false ∨ inp.bookingDateRaw = "" ∨
    (∃ msg, env.behavior = .threw msg) ∨ env.behavior = .returned none ∨
    (∃ w, env.behavior = .returned (some w) ∧ truthyOpt w.error = true)

/-! ## Lemmas about the decoder fold -/

lemma wordsStep_unrec (t c : Nat) (p : String) (h : unrecognizedToken p = true) :
    wordsStep (t, c) p = (t, c) := by
  unfold unrecognizedToken at h
  simp only [Bool.and_eq_true, Option.isNone_iff_eq_none, decide_eq_true_eq] at h
  obtain ⟨⟨⟨⟨h1, h2⟩, h3⟩, h4⟩, h5⟩ := h
  simp [wordsStep, h1, h2, h3, h4, h5]

lemma foldl_wordsStep_unrec (l : List String) (t c : Nat)
    (h : l.all unrecognizedToken = true) : l.foldl wordsStep (t, c) = (t, c) := by
  induction l generalizing t c with
  | nil => rfl
  | cons p rest ih =>
    simp only [List.all_cons, Bool.and_eq_true] at h
    rw [List.foldl_cons, wordsStep_unrec t c p h.1]
    exact ih t c h.2

lemma firstDigitRun_none_of_noDigit (cs : List Char) (h : cs.any isDigitCh = false) :
    firstDigitRun cs = none := by
  induction cs with
  | nil => rfl
  | cons c rest ih =>
    simp only [List.any_cons, Bool.or_eq_false_iff] at h
    unfold firstDigitRun
    rw [if_neg (by simp [h.1]), ih h.2]

lemma firstDigitRun_isSome_of_hasDigit (cs : List Char) (h : cs.any isDigitCh = true) :
    (firstDigitRun cs).isSome = true := by
  induction cs with
  | nil => simp at h
  | cons c rest ih =>
    unfold firstDigitRun
    by_cases hc : isDigitCh c = true
    · rw [if_pos hc]; rfl
    · rw [if_neg hc]
      simp only [List.any_cons, Bool.or_eq_true] at h
      exact ih (h.resolve_left hc)

/-- C6: the number-words decoder satisfies the stated accumulation
semantics: unit and tens words add into the current accumulator, the
word hundred multiplies it by 100, the word thousand multiplies it by
1000 and folds it into the running total resetting the current
accumulator, literal-integer tokens add into the current accumulator,
unrecognized tokens are skipped, the result is total plus current, the
quoted examples decode to 22, 200 and 1200, and an empty or fully
unrecognized string decodes to 0. -/
theorem c6_words_decoder :
    (∀ t c p v, smallWord p = some v → wordsStep (t, c) p = (t, c + v)) ∧
    (∀ t c p v, smallWord p = none → tensWord p = some v →
      wordsStep (t, c) p = (t, c + v)) ∧
    (∀ t c, wordsStep (t, c) ("hundred") = (t, c * 100)) ∧
    (∀ t c, wordsStep (t, c) ("thousand") = (t + c * 1000, 0)) ∧
    (∀ t c p v, smallWord p = none → tensWord p = none → p ≠ "hundred" →
      p ≠ "thousand" → jsParseIntNat p = some v → wordsStep (t, c) p = (t, c + v)) ∧
    (∀ t c p, unrecognizedToken p = true → wordsStep (t, c) p = (t, c)) ∧
    (∀ s, wordsToNumber s =
      ((normTokens s).foldl wordsStep (0, 0)).1 +
        ((normTokens s).foldl wordsStep (0, 0)).2) ∧
    wordsToNumber ("twenty two") = 22 ∧
    wordsToNumber ("two hundred") = 200 ∧
    wordsToNumber ("one thousand two hundred") = 1200 ∧
    wordsToNumber ("") = 0 ∧
    (∀ s, (normTokens s).all unrecognizedToken = true → wordsToNumber s = 0) := by
  refine ⟨?_, ?_, ?_, ?_, ?_, ?_, ?_, ?_, ?_, ?_, ?_, ?_⟩
  · intro t c p v h; simp [wordsStep, h]
  · intro t c p v h1 h2; simp [wordsStep, h1, h2]
  · intro t c; rfl
  · intro t c; rfl
  · intro t c p v h1 h2 h3 h4 h5; simp [wordsStep, h1, h2, h3, h4, h5]
  · exact wordsStep_unrec
  · intro s; rfl
  · decide
  · decide
  · decide
  · decide
  · intro s h
    unfold wordsToNumber
    rw [foldl_wordsStep_unrec _ 0 0 h]
    rfl

/-- C6 witness: the accumulation equations applied at concrete tokens,
and a fully unrecognized string decoding to 0. -/
theorem c6_words_decoder_witness :
    (smallWord ("seven") = some 7 ∧ wordsStep (0, 3) ("seven") = (0, 10)) ∧
    (jsParseIntNat ("45") = some 45 ∧ wordsStep (1, 2) ("45") = (1, 47)) ∧
    ((normTokens ("hello world")).all unrecognizedToken = true ∧
      wordsToNumber ("hello world") = 0) :=
  ⟨⟨by decide, c6_words_decoder.1 0 3 ("seven") 7 (by decide)⟩,
   ⟨by decide, c6_words_decoder.2.2.2.2.1 1 2 ("45") 45 (by decide) (by decide)
      (by decide) (by decide) (by decide)⟩,
   ⟨by decide, c6_words_decoder.2.2.2.2.2.2.2.2.2.2.2 ("hello world") (by decide)⟩⟩

lemma monthLenN_le (leap : Bool) (m : Nat) : monthLenN leap m ≤ 31 := by
  unfold monthLenN
  rcases m with _ | _ | _ | _ | _ | _ | _ | _ | _ | _ | _ | _ | _ | m <;>
    cases leap <;> simp

lemma charToDigit_digitToChar (k : Nat) (hk : k ≤ 9) :
    charToDigit (digitToChar k) = some k := by
  interval_cases k <;> decide

lemma isWs_digitToChar (k : Nat) (hk : k ≤ 9) :
    isWsChar (digitToChar k) = false := by
  interval_cases k <;> decide

lemma dropWhile_all_false {p : Char → Bool} (cs : List Char)
    (h : ∀ c ∈ cs, p c = false) : cs.dropWhile p = cs := by
  cases cs with
  | nil => rfl
  | cons c rest =>
    rw [List.dropWhile_cons]
    simp [h c (List.mem_cons_self c rest)]

lemma trimChars_eq_self (cs : List Char) (h : ∀ c ∈ cs, isWsChar c = false) :
    trimChars cs = cs := by
  unfold trimChars
  rw [dropWhile_all_false cs h,
    dropWhile_all_false _ (fun c hc => h c (List.mem_reverse.mp hc)),
    List.reverse_reverse]

lemma mem_of_matchCI {w cs r : List Char} (h : matchCI w cs = some r) :
    ∀ c ∈ r, c ∈ cs := by
  induction w generalizing cs with
  | nil =>
    unfold matchCI at h
    cases h
    exact fun c hc => hc
  | cons wc ws ih =>
    cases cs with
    | nil => simp [matchCI] at h
    | cons c2 cs2 =>
      unfold matchCI at h
      by_cases hc : eqCI wc c2 = true
      · rw [if_pos hc] at h
        exact fun c hcm => List.mem_cons_of_mem _ (ih h c hcm)
      · rw [if_neg hc] at h
        exact absurd h (by simp)

lemma mem_of_tryHintWord {w : String} {hh : Hint} {cs : List Char}
    {p : Hint × List Char} (h : tryHintWord w hh cs = some p) :
    ∀ c ∈ p.2, c ∈ cs := by
  unfold tryHintWord at h
  cases hm : matchCI w.data cs with
  | none => rw [hm] at h; exact absurd h (by simp)
  | some r =>
    rw [hm] at h
    dsimp only at h
    by_cases hb : boundaryAfter r = true
    · rw [if_pos hb] at h
      cases h
      exact mem_of_matchCI hm
    · rw [if_neg hb] at h
      exact absurd h (by simp)

lemma mem_of_matchHintAt {cs : List Char} {p : Hint × List Char}
    (h : matchHintAt cs = some p) : ∀ c ∈ p.2, c ∈ cs := by
  unfold matchHintAt at h
  cases e1 : tryHintWord ("morning") .morning cs with
  | some p1 => rw [e1] at h; cases h; exact mem_of_tryHintWord e1
  | none =>
    rw [e1] at h
    cases e2 : tryHintWord ("afternoon") .afternoon cs with
    | some p2 => rw [e2] at h; cases h; exact mem_of_tryHintWord e2
    | none =>
      rw [e2] at h
      cases e3 : tryHintWord ("evening") .evening cs with
      | some p3 => rw [e3] at h; cases h; exact mem_of_tryHintWord e3
      | none =>
        rw [e3] at h
        exact mem_of_tryHintWord h

lemma noDigit_removeHintsAux (fuel : Nat) :
    ∀ (b : Bool) (cs : List Char), (∀ c ∈ cs, isDigitCh c = false) →
      ∀ c ∈ removeHintsAux fuel b cs, isDigitCh c = false := by
  induction fuel with
  | zero => intro b cs h; exact h
  | succ fuel ih =>
    intro b cs h
    cases cs with
    | nil => intro c hc; simp [removeHintsAux] at hc
    | cons c0 rest =>
      cases b with
      | true =>
        intro c hc
        have e : removeHintsAux (fuel + 1) true (c0 :: rest) =
            c0 :: removeHintsAux fuel (isWordChar c0) rest := rfl
        rw [e] at hc
        rcases List.mem_cons.mp hc with rfl | hc2
        · exact h c (List.mem_cons_self _ _)
        · exact ih (isWordChar c0) rest
            (fun y hy => h y (List.mem_cons_of_mem _ hy)) c hc2
      | false =>
        cases hm : matchHintAt (c0 :: rest) with
        | some pr =>
          intro c hc
          have e : removeHintsAux (fuel + 1) false (c0 :: rest) =
              removeHintsAux fuel true pr.2 := by
            simp [removeHintsAux, hm]
          rw [e] at hc
          exact ih true pr.2 (fun y hy => h y (mem_of_matchHintAt hm y hy)) c hc
        | none =>
          intro c hc
          have e : removeHintsAux (fuel + 1) false (c0 :: rest) =
              c0 :: removeHintsAux fuel (isWordChar c0) rest := by
            simp [removeHintsAux, hm]
          rw [e] at hc
          rcases List.mem_cons.mp hc with rfl | hc2
          · exact h c (List.mem_cons_self _ _)
          · exact ih (isWordChar c0) rest
              (fun y hy => h y (List.mem_cons_of_mem _ hy)) c hc2

lemma mem_of_dropWhile {p : Char → Bool} :
    ∀ {cs : List Char} {c : Char}, c ∈ cs.dropWhile p → c ∈ cs := by
  intro cs
  induction cs with
  | nil => intro c hc; simp [List.dropWhile] at hc
  | cons c0 rest ih =>
    intro c hc
    rw [List.dropWhile_cons] at hc
    by_cases h0 : p c0 = true
    · rw [if_pos h0] at hc
      exact List.mem_cons_of_mem _ (ih hc)
    · rw [if_neg h0] at hc
      exact hc

lemma mem_of_trimChars {cs : List Char} {c : Char} (hc : c ∈ trimChars cs) :
    c ∈ cs := by
  unfold trimChars at hc
  have h1 := List.mem_reverse.mp hc
  have h2 := mem_of_dropWhile h1
  have h3 := List.mem_reverse.mp h2
  exact mem_of_dropWhile h3

lemma noDigit_collapseWs :
    ∀ (b : Bool) (cs : List Char), (∀ c ∈ cs, isDigitCh c = false) →
      ∀ c ∈ collapseWs b cs, isDigitCh c = false := by
  intro b cs
  induction cs generalizing b with
  | nil => intro _ c hc; simp [collapseWs] at hc
  | cons c0 rest ih =>
    intro h c hc
    have hrest : ∀ y ∈ rest, isDigitCh y = false :=
      fun y hy => h y (List.mem_cons_of_mem _ hy)
    unfold collapseWs at hc
    by_cases hw : isWsChar c0 = true
    · rw [if_pos hw] at hc
      cases b with
      | true =>
        rw [if_pos rfl] at hc
        exact ih true hrest c hc
      | false =>
        rw [if_neg (by simp)] at hc
        rcases List.mem_cons.mp hc with rfl | hc2
        · decide
        · exact ih true hrest c hc2
    · rw [if_neg hw] at hc
      rcases List.mem_cons.mp hc with rfl | hc2
      · exact h c (List.mem_cons_self _ _)
      · exact ih false hrest c hc2

lemma noDigit_normalizeTime (s : String) (h : hasDigitStr s = false) :
    hasDigitStr (normalizeTime s) = false := by
  unfold hasDigitStr at h ⊢
  rw [List.any_eq_false] at h ⊢
  have h0 : ∀ c ∈ s.data, isDigitCh c = false := fun c hc => by
    simpa using h c hc
  intro c hc
  simp only [normalizeTime] at hc
  have hc1 := mem_of_trimChars hc
  have hc2 := noDigit_collapseWs false _
    (fun y hy => by
      have hy1 := List.mem_filter.mp hy
      have hy2 := mem_of_trimChars hy1.1
      exact noDigit_removeHintsAux _ false s.data h0 y hy2)
    c hc1
  simp [hc2]

lemma tryFormats_monthDay (b : Bool) (m : MonthName) (d : Nat) (h1 : 1 ≤ d)
    (h2 : d ≤ monthLenN b (monthIdx m)) :
    tryFormats b (mkMonthDayString m d) = some ⟨none, monthIdx m, d⟩ := by
  cases b <;> cases m <;> simp [monthIdx, monthLenN] at h2 <;>
    interval_cases d <;> decide

/-- C1 as amended: a year-free named-month date string resolving through
a strict format always receives exactly the reference year, with no
rollover, even when the resulting date falls before the reference day;
the fixup leaves every plausible parsed year untouched; and only an
implausible parsed year (more than ten years before the reference year,
or before 1900, as the lenient fallback produces) is replaced by the
reference year and then advanced by one when the date lies strictly
before the reference day. -/
theorem c1_amended :
    (∀ (relaxed : String → Option (Int × Nat × Nat)) (ref : RefDay)
        (m : MonthName) (d : Nat),
      1 ≤ d → d ≤ monthLenN (isLeapI ref.y) (monthIdx m) → 1900 ≤ ref.y →
      resolveDate relaxed ref (mkMonthDayString m d) =
        some (ref.y, monthIdx m, d)) ∧
    (∀ (ref : RefDay) (p : Int × Nat × Nat), ¬(p.1 < ref.y - 10 ∨ p.1 < 1900) →
      fixupYear ref p = p) ∧
    (∀ (ref : RefDay) (y : Int) (m d : Nat), (y < ref.y - 10 ∨ y < 1900) →
      fixupYear ref (y, m, d) =
        if dateBeforeP (ref.y, m, d) (ref.y, ref.m, ref.d) then (ref.y + 1, m, d)
        else (ref.y, m, d)) := by
  refine ⟨?_, ?_, ?_⟩
  · intro relaxed ref m d h1 h2 hy
    unfold resolveDate
    rw [tryFormats_monthDay (isLeapI ref.y) m d h1 h2]
    show some (fixupYear ref (ref.y, monthIdx m, d)) = _
    unfold fixupYear
    rw [if_neg]
    intro hcon
    rcases hcon with hcon | hcon <;> omega
  · intro ref p h
    unfold fixupYear
    rw [if_neg h]
  · intro ref y m d h
    unfold fixupYear
    rw [if_pos h]

/-- C1 counterexample: with reference day 2025-08-20 the year-free string
January 5 resolves to 2025-01-05 with no rollover, not to the
2026-01-05 the claim asserts: the parsed year equals the reference year
and is plausible, so the advance-by-one branch never runs. -/
theorem c1_counterexample :
    resolveDate noRelaxed ⟨2025, 8, 20⟩ ("January 5") = some ((2025 : Int), 1, 5) ∧
    resolveDate noRelaxed ⟨2025, 8, 20⟩ ("January 5") ≠ some ((2026 : Int), 1, 5) := by
  constructor <;> decide

/-- C1 witness: the amended theorem applied at December 1 against
reference day 2025-08-20, yielding 2025-12-01 as in the claim example
that remains true. -/
theorem c1_amended_witness :
    ((1 : Nat) ≤ 1 ∧
      (1 : Nat) ≤ monthLenN (isLeapI 2025) (monthIdx .december) ∧
      (1900 : Int) ≤ 2025) ∧
    mkMonthDayString .december 1 = "December 1" ∧
    resolveDate noRelaxed ⟨2025, 8, 20⟩ (mkMonthDayString .december 1) =
      some ((2025 : Int), 12, 1) :=
  ⟨⟨by decide, by decide, by decide⟩, by decide,
    c1_amended.1 noRelaxed ⟨2025, 8, 20⟩ .december 1 (by decide) (by decide)
      (by decide)⟩

/-- C2: for every well-formed ISO date string the active date resolver
parseBookingDate returns exactly the year, month and day encoded in the
string, whatever the engine fallback would do: no field is altered by
year-inference or rollover (the function performs none). -/
theorem c2_iso_exact (fb : String → Option (Nat × Nat × Nat)) (y m d : Nat)
    (hy : y ≤ 9999) (hm1 : 1 ≤ m) (hm2 : m ≤ 12) (hd1 : 1 ≤ d)
    (hd2 : d ≤ monthLenN (isLeapN y) m) :
    parseBookingDate fb (isoString y m d) = some (y, m, d) := by
  have hd31 : d ≤ 31 := le_trans hd2 (monthLenN_le _ _)
  have hne : isoString y m d ≠ "" := by
    intro hcon
    have hdata := congrArg String.data hcon
    simp [isoString, pad4] at hdata
  have hmem : ∀ c ∈ (isoString y m d).data, isWsChar c = false := by
    intro c hc
    simp only [isoString, pad4, pad2, List.cons_append, List.nil_append,
      List.mem_cons, List.not_mem_nil, or_false] at hc
    rcases hc with rfl | rfl | rfl | rfl | rfl | rfl | rfl | rfl | rfl | rfl
    · exact isWs_digitToChar _ (by omega)
    · exact isWs_digitToChar _ (by omega)
    · exact isWs_digitToChar _ (by omega)
    · exact isWs_digitToChar _ (by omega)
    · decide
    · exact isWs_digitToChar _ (by omega)
    · exact isWs_digitToChar _ (by omega)
    · decide
    · exact isWs_digitToChar _ (by omega)
    · exact isWs_digitToChar _ (by omega)
  unfold parseBookingDate
  rw [if_neg hne]
  rw [trimChars_eq_self _ hmem]
  have e1 := charToDigit_digitToChar (y / 1000) (by omega)
  have e2 := charToDigit_digitToChar (y / 100 % 10) (by omega)
  have e3 := charToDigit_digitToChar (y / 10 % 10) (by omega)
  have e4 := charToDigit_digitToChar (y % 10) (by omega)
  have e5 := charToDigit_digitToChar (m / 10) (by omega)
  have e6 := charToDigit_digitToChar (m % 10) (by omega)
  have e7 := charToDigit_digitToChar (d / 10) (by omega)
  have e8 := charToDigit_digitToChar (d % 10) (by omega)
  have hyv : y / 1000 * 1000 + y / 100 % 10 * 100 + y / 10 % 10 * 10 + y % 10 = y := by
    omega
  have hmv : m / 10 * 10 + m % 10 = m := by omega
  have hdv : d / 10 * 10 + d % 10 = d := by omega
  simp only [isoString, pad4, pad2, List.cons_append, List.nil_append,
    parseYMDChars, e1, e2, e3, e4, e5, e6, e7, e8, Option.bind_eq_bind,
    Option.some_bind, hyv, hmv, hdv]
  rw [if_pos ⟨hm1, hm2, hd1, hd2⟩]

/-- C2 witness: the theorem applied at the concrete string 2031-02-03. -/
theorem c2_iso_exact_witness :
    isoString 2031 2 3 = "2031-02-03" ∧
    ((2031 : Nat) ≤ 9999 ∧ (1 : Nat) ≤ 2 ∧ (2 : Nat) ≤ 12 ∧ (1 : Nat) ≤ 3 ∧
      (3 : Nat) ≤ monthLenN (isLeapN 2031) 2) ∧
    parseBookingDate noJsDate (isoString 2031 2 3) = some (2031, 2, 3) :=
  ⟨by decide, by decide,
   c2_iso_exact noJsDate 2031 2 3 (by decide) (by decide) (by decide) (by decide)
     (by decide)⟩

/-- C3: the seating decision is the pure function of condition text and
precipitation probability given by the first-match-wins order of the
source: clear or sun in the lowercased condition, or probability below
0.2, gives good with outdoor seating; else rain in the condition or
probability at least 0.4 gives bad with indoor seating; else moderate
with indoor seating; in particular clear sky with 0.1 maps to good and
outdoor, light rain with 0.5 to bad and indoor, clouds with 0.25 to
moderate and indoor. -/
theorem c3_weather_policy :
    (∀ cond pop,
      (summarizeSuggestion cond pop).1 = (specSeatingDecision cond pop).1 ∧
      (seatingFromCategory (summarizeSuggestion cond pop).1 = "outdoor" ↔
        (specSeatingDecision cond pop).2 = true)) ∧
    (summarizeSuggestion ("clear sky") (mkRat 1 10)).1 = "good" ∧
    seatingFromCategory (summarizeSuggestion ("clear sky") (mkRat 1 10)).1 = "outdoor" ∧
    (summarizeSuggestion ("light rain") (mkRat 1 2)).1 = "bad" ∧
    seatingFromCategory (summarizeSuggestion ("light rain") (mkRat 1 2)).1 = "indoor" ∧
    (summarizeSuggestion ("clouds") (mkRat 1 4)).1 = "moderate" ∧
    seatingFromCategory (summarizeSuggestion ("clouds") (mkRat 1 4)).1 = "indoor" := by
  refine ⟨?_, by decide, by decide, by decide, by decide, by decide, by decide⟩
  intro cond pop
  unfold summarizeSuggestion specSeatingDecision
  dsimp only
  split_ifs <;> decide

/-- C9: in the booking-creation handler, a string guest-count field that
contains a digit resolves to the integer value of its first maximal
digit run (the word decoder is not consulted: the result is exactly the
digit-run value), so that the input 2 hundred yields 2 although the
word decoder would give 200; the word decoder is used only for
digit-free strings, and a word-decoded zero is turned into a missing
value. -/
theorem c9_guest_digits :
    (∀ s, hasDigitStr s = true →
      parseGuestStr s = (firstDigitRun s.data).map digitsToNat ∧
        (firstDigitRun s.data).isSome = true) ∧
    parseGuestStr ("2 hundred") = some 2 ∧
    wordsToNumber ("2 hundred") = 200 ∧
    (∀ s, hasDigitStr s = false →
      parseGuestStr s =
        (if wordsToNumber s = 0 then none else some (wordsToNumber s))) := by
  refine ⟨?_, by decide, by decide, ?_⟩
  · intro s h
    have hs := firstDigitRun_isSome_of_hasDigit s.data h
    constructor
    · cases hfd : firstDigitRun s.data with
      | none => rw [hfd] at hs; simp at hs
      | some run => simp [parseGuestStr, hfd]
    · exact hs
  · intro s h
    have hn := firstDigitRun_none_of_noDigit s.data h
    simp [parseGuestStr, hn]

/-- C9 witness: the digit branch applied at a concrete mixed input and
the word branch at a concrete digit-free input. -/
theorem c9_guest_digits_witness :
    (hasDigitStr ("2 hundred") = true ∧
      parseGuestStr ("2 hundred") = (firstDigitRun ("2 hundred").data).map digitsToNat) ∧
    (hasDigitStr ("twelve") = false ∧
      parseGuestStr ("twelve") =
        (if wordsToNumber ("twelve") = 0 then none else some (wordsToNumber ("twelve")))) :=
  ⟨⟨by decide, (c9_guest_digits.1 ("2 hundred") (by decide)).1⟩,
   ⟨by decide, c9_guest_digits.2.2.2 ("twelve") (by decide)⟩⟩

lemma daysInYearN_pos (y : Nat) : 365 ≤ daysInYearN y := by
  unfold daysInYearN; split <;> omega

lemma daysBeforeYearN_ge_self : ∀ y : Nat, y ≤ daysBeforeYearN y := by
  intro y
  induction y with
  | zero => simp [daysBeforeYearN]
  | succ y ih =>
    have := daysInYearN_pos y
    unfold daysBeforeYearN
    omega

lemma sumFromYears_succ : ∀ (j k : Nat),
    sumFromYears k (j + 1) = sumFromYears k j + daysInYearN (k + j) := by
  intro j
  induction j with
  | zero => intro k; simp [sumFromYears]
  | succ j ih =>
    intro k
    have h1 : sumFromYears k (j + 2) = daysInYearN k + sumFromYears (k + 1) (j + 1) := rfl
    have h2 : sumFromYears k (j + 1) = daysInYearN k + sumFromYears (k + 1) j := rfl
    rw [h1, ih (k + 1), h2, show k + 1 + j = k + (j + 1) by omega]
    omega

lemma daysBeforeYearN_eq : ∀ y : Nat, daysBeforeYearN y = sumFromYears 0 y := by
  intro y
  induction y with
  | zero => rfl
  | succ y ih =>
    unfold daysBeforeYearN
    rw [ih, sumFromYears_succ y 0]
    simp

lemma yearGo_spec : ∀ (j k r fuel : Nat), j ≤ fuel → r < daysInYearN (k + j) →
    yearGo fuel k (sumFromYears k j + r) = (k + j, r) := by
  intro j
  induction j with
  | zero =>
    intro k r fuel _ hr
    simp only [Nat.add_zero] at hr
    have hz : sumFromYears k 0 + r = r := by simp [sumFromYears]
    rw [hz]
    cases fuel with
    | zero => rfl
    | succ fuel =>
      unfold yearGo
      rw [if_pos hr]
      rfl
  | succ j ih =>
    intro k r fuel hf hr
    cases fuel with
    | zero => omega
    | succ fuel =>
      have hs : sumFromYears k (j + 1) + r =
          daysInYearN k + (sumFromYears (k + 1) j + r) := by
        show daysInYearN k + sumFromYears (k + 1) j + r = _
        omega
      unfold yearGo
      rw [hs, if_neg (by omega)]
      have hr2 : r < daysInYearN (k + 1 + j) := by
        rwa [show k + 1 + j = k + (j + 1) by omega]
      have := ih (k + 1) r fuel (by omega) hr2
      rw [show daysInYearN k + (sumFromYears (k + 1) j + r) - daysInYearN k =
        sumFromYears (k + 1) j + r by omega]
      rw [this, show k + 1 + j = k + (j + 1) by omega]

lemma monthGo_spec_aux : ∀ (j k r fuel : Nat) (leap : Bool), j ≤ fuel →
    r < monthLenN leap (k + j) →
    monthGo fuel leap k (sumMonths leap k j + r) = (k + j, r) := by
  intro j
  induction j with
  | zero =>
    intro k r fuel leap _ hr
    simp only [Nat.add_zero] at hr
    have hz : sumMonths leap k 0 + r = r := by simp [sumMonths]
    rw [hz]
    cases fuel with
    | zero => rfl
    | succ fuel =>
      unfold monthGo
      rw [if_pos hr]
      rfl
  | succ j ih =>
    intro k r fuel leap hf hr
    cases fuel with
    | zero => omega
    | succ fuel =>
      have hs : sumMonths leap k (j + 1) + r =
          monthLenN leap k + (sumMonths leap (k + 1) j + r) := by
        show monthLenN leap k + sumMonths leap (k + 1) j + r = _
        omega
      unfold monthGo
      rw [hs, if_neg (by omega)]
      have hr2 : r < monthLenN leap (k + 1 + j) := by
        rwa [show k + 1 + j = k + (j + 1) by omega]
      have := ih (k + 1) r fuel leap (by omega) hr2
      rw [show monthLenN leap k + (sumMonths leap (k + 1) j + r) - monthLenN leap k =
        sumMonths leap (k + 1) j + r by omega]
      rw [this, show k + 1 + j = k + (j + 1) by omega]

lemma sumMonths_succ : ∀ (j k : Nat) (leap : Bool),
    sumMonths leap k (j + 1) = sumMonths leap k j + monthLenN leap (k + j) := by
  intro j
  induction j with
  | zero => intro k leap; simp [sumMonths]
  | succ j ih =>
    intro k leap
    have h1 : sumMonths leap k (j + 2) = monthLenN leap k + sumMonths leap (k + 1) (j + 1) := rfl
    have h2 : sumMonths leap k (j + 1) = monthLenN leap k + sumMonths leap (k + 1) j := rfl
    rw [h1, ih (k + 1), h2, show k + 1 + j = k + (j + 1) by omega]
    omega

lemma daysBeforeMonthN_eq : ∀ (m : Nat) (leap : Bool), 1 ≤ m →
    daysBeforeMonthN leap m = sumMonths leap 1 (m - 1) := by
  intro m
  induction m with
  | zero => intro leap h; omega
  | succ m ih =>
    intro leap _
    cases Nat.eq_zero_or_pos m with
    | inl h0 => subst h0; rfl
    | inr hpos =>
      have hm : m + 1 - 1 = (m - 1) + 1 := by omega
      rw [hm, sumMonths_succ (m - 1) 1 leap, ← ih leap hpos,
        show 1 + (m - 1) = m by omega]
      cases m with
      | zero => omega
      | succ m2 => rfl

lemma monthGo_spec (leap : Bool) (m d : Nat) (hm1 : 1 ≤ m) (hm2 : m ≤ 12)
    (hd1 : 1 ≤ d) (hd2 : d ≤ monthLenN leap m) :
    monthGo 13 leap 1 (daysBeforeMonthN leap m + (d - 1)) = (m, d - 1) := by
  rw [daysBeforeMonthN_eq m leap hm1]
  have hr : d - 1 < monthLenN leap (1 + (m - 1)) := by
    rw [show 1 + (m - 1) = m by omega]
    omega
  have := monthGo_spec_aux (m - 1) 1 (d - 1) 13 leap (by omega) hr
  rw [this, show 1 + (m - 1) = m by omega]

lemma doy_lt (leap : Bool) (m d : Nat) (hm1 : 1 ≤ m) (hm2 : m ≤ 12)
    (hd1 : 1 ≤ d) (hd2 : d ≤ monthLenN leap m) :
    daysBeforeMonthN leap m + (d - 1) < (if leap then 366 else 365) := by
  cases leap <;> interval_cases m <;>
    simp [daysBeforeMonthN, monthLenN] at hd2 ⊢ <;> omega
/-- C8: round-trip law of the booking moment composer: for every
resolved date and time, composing the absolute instant in the fixed IST
reference timezone and then reading back the local display fields of
that same moment reproduces exactly the date and time fields used to
construct it; the instant and the display both derive from the one
composed BookingMoment value. -/
theorem c8_moment_roundtrip (y m d hh mi : Nat) (hy : 1 ≤ y) (hm1 : 1 ≤ m)
    (hm2 : m ≤ 12) (hd1 : 1 ≤ d) (hd2 : d ≤ monthLenN (isLeapN y) m)
    (hhh : hh < 24) (hmi : mi < 60) :
    localFields (composeMoment y m d hh mi) = (y, m, d, hh, mi) := by
  have hT1 : y ≤ daysBeforeYearN y := daysBeforeYearN_ge_self y
  have hTe : toDayNumber y m d =
      daysBeforeYearN y + daysBeforeMonthN (isLeapN y) m + (d - 1) := rfl
  have hT : 1 ≤ toDayNumber y m d := by omega
  have hdoy : daysBeforeMonthN (isLeapN y) m + (d - 1) < daysInYearN y := by
    have := doy_lt (isLeapN y) m d hm1 hm2 hd1 hd2
    unfold daysInYearN
    exact this
  have hyear : yearGo (toDayNumber y m d + 1) 0 (toDayNumber y m d) =
      (y, daysBeforeMonthN (isLeapN y) m + (d - 1)) := by
    have hTe2 : toDayNumber y m d =
        sumFromYears 0 y + (daysBeforeMonthN (isLeapN y) m + (d - 1)) := by
      rw [hTe, daysBeforeYearN_eq]
      omega
    have hr : daysBeforeMonthN (isLeapN y) m + (d - 1) < daysInYearN (0 + y) := by
      rw [Nat.zero_add]; exact hdoy
    have hfuel : y ≤ toDayNumber y m d + 1 := by omega
    have hspec := yearGo_spec y 0 (daysBeforeMonthN (isLeapN y) m + (d - 1))
      (toDayNumber y m d + 1) hfuel hr
    rw [← hTe2] at hspec
    simpa using hspec
  have hfdn : fromDayNumber (toDayNumber y m d) = (y, m, d) := by
    unfold fromDayNumber
    rw [hyear]
    dsimp only
    rw [monthGo_spec (isLeapN y) m d hm1 hm2 hd1 hd2]
    have : d - 1 + 1 = d := by omega
    rw [this]
  unfold localFields composeMoment istOffsetMin
  dsimp only
  have hloc : toDayNumber y m d * 1440 + hh * 60 + mi - 330 + 330 =
      toDayNumber y m d * 1440 + (hh * 60 + mi) := by omega
  rw [hloc]
  have hdiv : (toDayNumber y m d * 1440 + (hh * 60 + mi)) / 1440 = toDayNumber y m d := by
    omega
  have hmod : (toDayNumber y m d * 1440 + (hh * 60 + mi)) % 1440 = hh * 60 + mi := by
    omega
  rw [hdiv, hmod, hfdn]
  have h60a : (hh * 60 + mi) / 60 = hh := by omega
  have h60b : (hh * 60 + mi) % 60 = mi := by omega
  rw [h60a, h60b]

/-- C8 witness: the round trip applied at date 2025-08-20 and time
18:00. -/
theorem c8_moment_roundtrip_witness :
    ((1 : Nat) <= 2025 ∧ (1 : Nat) <= 8 ∧ (8 : Nat) <= 12 ∧ (1 : Nat) <= 20 ∧
      (20 : Nat) <= monthLenN (isLeapN 2025) 8 ∧ (18 : Nat) < 24 ∧ (0 : Nat) < 60) ∧
    localFields (composeMoment 2025 8 20 18 0) = (2025, 8, 20, 18, 0) :=
  ⟨by decide, c8_moment_roundtrip 2025 8 20 18 0 (by decide) (by decide) (by decide)
    (by decide) (by decide) (by decide) (by decide)⟩

/-- C7: for every time string whose remainder after hint-word removal
contains no digit, the resolved clock time is the hint default: morning
09:00, afternoon 14:00, evening 18:00, night 18:00, and the universal
fallback 18:00 when no recognized day-part is present. -/
theorem c7_time_defaults (s : String) (h : hasDigitStr s = false) :
    resolveTime s =
      TimeParse.parsed (hintDefault (findHint s)).1 (hintDefault (findHint s)).2 := by
  have hn := noDigit_normalizeTime s h
  unfold resolveTime
  dsimp only
  rw [if_neg (by simp [hn])]
  cases hf : findHint s with
  | none => decide
  | some hint => cases hint <;> decide

/-- C7 witness: the theorem applied at a digit-free evening phrase and at
a digit-free phrase with no day-part. -/
theorem c7_time_defaults_witness :
    hasDigitStr ("dinner in the evening") = false ∧
    resolveTime ("dinner in the evening") = TimeParse.parsed 18 0 ∧
    hasDigitStr ("sometime") = false ∧
    resolveTime ("sometime") = TimeParse.parsed 18 0 :=
  ⟨by decide, c7_time_defaults ("dinner in the evening") (by decide),
   by decide, c7_time_defaults ("sometime") (by decide)⟩

lemma weatherLookup_unavailable (env : WeatherEnv) (cpd : Bool)
    (h : env.hasService = false ∨ env.hasApiKey = false ∨ cpd = false ∨
      (∃ msg, env.behavior = .threw msg) ∨ env.behavior = .returned none ∨
      (∃ w, env.behavior = .returned (some w) ∧ truthyOpt w.error = true)) :
    (weatherLookup env cpd).1 = defaultGoodWeather ∧
      (weatherLookup env cpd).2 ≠ none := by
  unfold weatherLookup
  by_cases h1 : env.hasService = false ∨ env.hasApiKey = false ∨ cpd = false
  · rw [if_pos h1]
    exact ⟨rfl, by simp⟩
  · rw [if_neg h1]
    cases hbe : env.behavior with
    | threw msg => exact ⟨rfl, by simp⟩
    | returned w =>
      cases w with
      | none => exact ⟨rfl, by simp⟩
      | some w0 =>
        have htr : truthyOpt w0.error = true := by
          rcases h with h | h | h | ⟨msg, hm⟩ | hm | ⟨w1, hw1, htr1⟩
          · exact absurd (Or.inl h) h1
          · exact absurd (Or.inr (Or.inl h)) h1
          · exact absurd (Or.inr (Or.inr h)) h1
          · rw [hbe] at hm; exact absurd hm (by simp)
          · rw [hbe] at hm; exact absurd hm (by simp)
          · rw [hbe] at hw1
            have : w0 = w1 := by
              injection hw1 with he
              injection he
            rw [this]
            exact htr1
        dsimp only
        rw [if_pos htr]
        exact ⟨rfl, by simp⟩
/-- C5: a booking-creation request that is not a preview, or is an
auto-confirmed preview, with any of customerName, numberOfGuests,
bookingDate or bookingTime missing (empty, unparseable to a positive
count, or null) is rejected with status 400 and reason missing_fields,
and no record is saved. -/
theorem c5_missing_fields (fb : String → Option (Nat × Nat × Nat))
    (env : WeatherEnv) (inp : BookingInput)
    (hreq : (inp.previewQuery || inp.previewBody) = false ∨
      ((inp.previewQuery || inp.previewBody) &&
        (inp.autoConfirmQuery || inp.autoConfirmBody)) = true)
    (hmiss : inp.customerName = "" ∨ guestsFalsy (normalizeGuests inp.guests) ∨
      parseBookingDate fb inp.bookingDateRaw = none ∨ inp.bookingTime = "") :
    createBooking fb env inp =
      { status := 400, errorCode := some ("missing_fields"), preview := none,
        saved := none, weatherError := none } := by
  unfold createBooking
  dsimp only
  rw [if_pos ⟨hreq, hmiss⟩]

/-- C4: whenever no weather observation is available (service module
absent, API key missing, no client-sent date, thrown call, null or
error-shaped response), a request that passes field validation still
completes with a success status, the fixed default decision (category
good, note default) and outdoor seating in its preview or saved record,
and a non-null weatherError marker; weather unavailability never
surfaces as a request failure. -/
theorem c4_weather_default (fb : String → Option (Nat × Nat × Nat))
    (env : WeatherEnv) (inp : BookingInput)
    (hval : ¬(((inp.previewQuery || inp.previewBody) = false ∨
      ((inp.previewQuery || inp.previewBody) &&
        (inp.autoConfirmQuery || inp.autoConfirmBody)) = true) ∧
      (inp.customerName = "" ∨ guestsFalsy (normalizeGuests inp.guests) ∨
        parseBookingDate fb inp.bookingDateRaw = none ∨ inp.bookingTime = "")))
    (hunav : weatherUnavailable env inp) :
    ((createBooking fb env inp).status = 200 ∨
      (createBooking fb env inp).status = 201) ∧
    (createBooking fb env inp).weatherError ≠ none ∧
    (∃ obj, ((createBooking fb env inp).preview = some obj ∨
        (createBooking fb env inp).saved = some obj) ∧
      obj.weatherInfo = defaultGoodWeather ∧
      obj.seatingPreference = "outdoor") := by
  have hu2 : env.hasService = false ∨ env.hasApiKey = false ∨
      (decide (inp.bookingDateRaw ≠ "")) = false ∨
      (∃ msg, env.behavior = .threw msg) ∨ env.behavior = .returned none ∨
      (∃ w, env.behavior = .returned (some w) ∧ truthyOpt w.error = true) := by
    unfold weatherUnavailable at hunav
    rcases hunav with h | h | h | h | h | h
    · exact Or.inl h
    · exact Or.inr (Or.inl h)
    · exact Or.inr (Or.inr (Or.inl (by simp [h])))
    · exact Or.inr (Or.inr (Or.inr (Or.inl h)))
    · exact Or.inr (Or.inr (Or.inr (Or.inr (Or.inl h))))
    · exact Or.inr (Or.inr (Or.inr (Or.inr (Or.inr h))))
  obtain ⟨hw1, hw2⟩ :=
    weatherLookup_unavailable env (decide (inp.bookingDateRaw ≠ "")) hu2
  unfold createBooking
  dsimp only
  rw [if_neg hval, hw1]
  simp only [defaultGoodWeather]
  rw [if_pos trivial]
  by_cases hpv : ((inp.previewQuery || inp.previewBody) = true ∧
      ((inp.previewQuery || inp.previewBody) &&
        (inp.autoConfirmQuery || inp.autoConfirmBody)) = false)
  · rw [if_pos hpv]
    refine ⟨Or.inl rfl, hw2, ?_⟩
    exact ⟨_, Or.inl rfl, rfl, rfl⟩
  · rw [if_neg hpv]
    refine ⟨Or.inr rfl, hw2, ?_⟩
    exact ⟨_, Or.inr rfl, rfl, rfl⟩

/-- C5 witness: the rejection applied at a concrete empty non-preview
request. -/
theorem c5_missing_fields_witness :
    createBooking noJsDate ⟨false, false, .returned none⟩
      { customerName := "", guests := .absent, bookingDateRaw := "",
        bookingTime := "", previewQuery := false, previewBody := false,
        autoConfirmQuery := false, autoConfirmBody := false } =
      { status := 400, errorCode := some ("missing_fields"), preview := none,
        saved := none, weatherError := none } :=
  c5_missing_fields noJsDate _ _ (Or.inl rfl) (Or.inl rfl)

/-- C4 witness: the default substitution applied at a concrete preview
request with the weather service absent. -/
theorem c4_weather_default_witness :
    ((createBooking noJsDate ⟨false, false, .returned none⟩
        { customerName := "Ana", guests := .num 2, bookingDateRaw := "",
          bookingTime := "", previewQuery := true, previewBody := false,
          autoConfirmQuery := false, autoConfirmBody := false }).status = 200 ∨
      (createBooking noJsDate ⟨false, false, .returned none⟩
        { customerName := "Ana", guests := .num 2, bookingDateRaw := "",
          bookingTime := "", previewQuery := true, previewBody := false,
          autoConfirmQuery := false, autoConfirmBody := false }).status = 201) ∧
    (createBooking noJsDate ⟨false, false, .returned none⟩
        { customerName := "Ana", guests := .num 2, bookingDateRaw := "",
          bookingTime := "", previewQuery := true, previewBody := false,
          autoConfirmQuery := false, autoConfirmBody := false }).weatherError ≠ none ∧
    (∃ obj, ((createBooking noJsDate ⟨false, false, .returned none⟩
        { customerName := "Ana", guests := .num 2, bookingDateRaw := "",
          bookingTime := "", previewQuery := true, previewBody := false,
          autoConfirmQuery := false, autoConfirmBody := false }).preview = some obj ∨
        (createBooking noJsDate ⟨false, false, .returned none⟩
        { customerName := "Ana", guests := .num 2, bookingDateRaw := "",
          bookingTime := "", previewQuery := true, previewBody := false,
          autoConfirmQuery := false, autoConfirmBody := false }).saved = some obj) ∧
      obj.weatherInfo = defaultGoodWeather ∧
      obj.seatingPreference = "outdoor") :=
  c4_weather_default noJsDate _ _ (by decide) (Or.inl rfl)

end Vaiu
